import Mathlib

/-!
Shallow embedding of the chunked-upload protocol of django-chunked-upload
(src/chunked_upload/models.py and src/chunked_upload/views.py).

Bytes are modelled as lists of naturals; machine integers in the source are
unbounded Python ints, so `Int`/`Nat` are exact. Timestamps are naturals.
The pluggable pieces that live outside src/ (the ORM persistence layer, the
`hashlib.md5` digest and the configuration module `chunked_upload/settings.py`)
appear as explicit parameters, per the spec, which treats them as external
collaborators specified only at their interface boundary.
-/

namespace DCU

/-- Byte strings: one natural per byte. -/
abbrev Bytes := List Nat

/-- Upload status enum, from chunked_upload/constants.py (UPLOADING, COMPLETE);
the numeric values never matter, only equality tests against COMPLETE. -/
inductive UploadStatus where
  | uploading
  | complete
deriving DecidableEq, Repr

/-- The persisted upload-session record, from AbstractChunkedUpload in
src/chunked_upload/models.py.  `fileData` is the content of the backing
object named by the `file` field; `md5cache` is the `_md5` instance
attribute caching the last computed digest. -/
structure ChunkedUpload where
  upload_id : String
  fileData : Bytes
  filename : String
  offset : Int
  created_on : Nat
  status : UploadStatus
  completed_on : Option Nat
  md5cache : Option String
deriving DecidableEq, Repr

/-- Configuration, from chunked_upload/settings.py and view attributes.
Modelled from the spec: settings.py is not under src/; the spec (section 9)
lists the recognized options maxBytes, expirationWindow, failIfNoHeader and
the storage-backend switch (USE_AZURE_APPEND_BLOB in models.py). -/
structure Config where
  max_bytes : Option Int
  expiration_delta : Nat
  fail_if_no_header : Bool
  use_azure : Bool

/-- expires_on property of AbstractChunkedUpload: created_on + EXPIRATION_DELTA. -/
def ChunkedUpload.expires_on (cfg : Config) (s : ChunkedUpload) : Nat :=
  s.created_on + cfg.expiration_delta

/-- expired property of AbstractChunkedUpload: expires_on <= timezone.now(). -/
def ChunkedUpload.expired (cfg : Config) (s : ChunkedUpload) (now : Nat) : Bool :=
  decide (s.expires_on cfg ≤ now)

/-- md5 property of AbstractChunkedUpload: return the cached digest if set,
else hash the whole backing object and cache the result.  The digest
function itself (hashlib.md5, an external library) is a parameter. -/
def ChunkedUpload.md5 (hashFn : Bytes → String) (s : ChunkedUpload) :
    String × ChunkedUpload :=
  match s.md5cache with
  | some h => (h, s)
  | none =>
      let h := hashFn s.fileData
      (h, { s with md5cache := some h })

/-- One chunk payload as delivered by request.FILES: the client filename and
the raw bytes.  Django uploaded files always expose a byte count equal to the
payload length, so the hasattr(chunk, size) fallback in append_chunk is the
branch taken whenever chunk_size is None. -/
structure Chunk where
  name : String
  data : Bytes
deriving DecidableEq, Repr

/-- size attribute of an uploaded file: the payload byte count. -/
def Chunk.size (c : Chunk) : Int := (c.data.length : Int)

/-- A storage-backend failure (disk or blob-service error raised inside
append_chunk); such exceptions are not ChunkedUploadError and propagate. -/
inductive StorageErr where
  | writeFailed
deriving DecidableEq, Repr

/-- append_chunk of AbstractChunkedUpload (models.py lines 73-116).
Both backends share the shape: (azure only, when offset == 0) reset the blob
to empty, then write the chunk bytes, then advance offset by chunk_size when
given (else by chunk.size), then clear the cached md5.  `write_ok` is whether
the backend write call (append_block / file write) succeeds; when it raises,
the exception propagates before any offset update runs. -/
def ChunkedUpload.append_chunk (cfg : Config) (s : ChunkedUpload) (chunk : Chunk)
    (chunk_size : Option Int) (write_ok : Bool) : Except StorageErr ChunkedUpload :=
  let base :=
    if cfg.use_azure then
      if s.offset = 0 then { s with fileData := [] } else s
    else s
  if write_ok then
    let appended := { base with fileData := base.fileData ++ chunk.data }
    let advanced :=
      match chunk_size with
      | some cs => { appended with offset := appended.offset + cs }
      | none => { appended with offset := appended.offset + chunk.size }
    .ok { advanced with md5cache := none }
  else
    .error .writeFailed

/-- The read handle produced by get_uploaded_file (models.py lines 118-122):
UploadedFile(file=self.file, name=self.filename, size=self.offset). -/
structure UploadedFile where
  name : String
  size : Int
  data : Bytes
deriving DecidableEq, Repr

/-- get_uploaded_file of AbstractChunkedUpload. -/
def ChunkedUpload.get_uploaded_file (s : ChunkedUpload) : UploadedFile :=
  { name := s.filename, size := s.offset, data := s.fileData }

/-- The session store: the rows of the ChunkedUpload table reachable by the
owner-scoped queryset.  Modelled from the spec: the ORM persistence layer is
an external collaborator (owner-scoped session lookup/persist service). -/
abbrev Store := List ChunkedUpload

/-- get_object_or_404(queryset, upload_id=uid): the row with this upload_id
(upload_id is a unique column, so at most one row matches). -/
def lookupUpload (store : Store) (uid : String) : Option ChunkedUpload :=
  store.find? (fun t => t.upload_id == uid)

/-- save(): persist the record, replacing the stored row with the same
upload_id, or inserting a new row. -/
def saveUpload : Store → ChunkedUpload → Store
  | [], cu => [cu]
  | t :: ts, cu =>
      if t.upload_id == cu.upload_id then cu :: ts else t :: saveUpload ts cu

/-- The error taxonomy of the protocol; each constructor is one raise site of
ChunkedUploadError in views.py (plus `storage` for backend exceptions, which
are not caught by the post wrapper and propagate). -/
inductive UploadError where
  /-- 400, No chunk file was submitted -/
  | missingChunk
  /-- get_object_or_404 raises Http404 -/
  | notFound
  /-- 410, Upload has expired -/
  | expired
  /-- 400, Upload has already been marked as complete -/
  | alreadyComplete
  /-- 400, Error in request headers -/
  | missingRangeHeader
  /-- 400, Size of file exceeds the limit -/
  | sizeLimitExceeded
  /-- 400, Offsets do not match; payload carries the current session offset -/
  | offsetMismatch (offset : Int)
  /-- 400, File size does not match headers -/
  | sizeMismatch
  /-- 400, upload_id / md5 required -/
  | missingParameters
  /-- 400, md5 checksum does not match -/
  | checksumMismatch
  /-- storage backend exception, propagates unrecovered -/
  | storage (e : StorageErr)
deriving DecidableEq, Repr

/-- A chunk-append request (ChunkedUploadView._post inputs): the uploaded
chunk from request.FILES, the posted upload_id, and the Content-Range header
already matched against the pattern bytes start-end/total; a header that is
absent or fails the regex is `none` (both take the same code path). -/
structure AppendRequest where
  chunk : Option Chunk
  upload_id : Option String
  content_range : Option (Nat × Nat × Nat)

/-- create_chunked_upload (views.py lines 142-150): a fresh record with a new
upload_id, the chunk filename, a zero-length backing file, and the model
defaults offset = 0, status = UPLOADING; created_on is set by the save. -/
def create_chunked_upload (now : Nat) (fresh_id : String) (filename : String) :
    ChunkedUpload :=
  { upload_id := fresh_id, fileData := [], filename := filename, offset := 0,
    created_on := now, status := .uploading, completed_on := none,
    md5cache := none }

/-- Session resolution in ChunkedUploadView._post (lines 181-189): a truthy
upload_id is looked up (404 when absent) and validated by
is_valid_chunked_upload (expired first, then already-complete); a missing or
empty upload_id creates a fresh session instead. -/
def resolveSession (cfg : Config) (now : Nat) (fresh_id : String) (store : Store)
    (upload_id : Option String) (chunk : Chunk) : Except UploadError ChunkedUpload :=
  match upload_id with
  | some uid =>
      if uid = "" then .ok (create_chunked_upload now fresh_id chunk.name)
      else
        match lookupUpload store uid with
        | none => .error .notFound
        | some cu =>
            if cu.expired cfg now then .error .expired
            else if cu.status = .complete then .error .alreadyComplete
            else .ok cu
  | none => .ok (create_chunked_upload now fresh_id chunk.name)

/-- Range resolution in ChunkedUploadView._post (lines 191-204): use the
matched header values, else fail if fail_if_no_header, else synthesize
start = 0, end = chunk.size - 1, total = chunk.size. -/
def resolveRange (cfg : Config) (chunk : Chunk)
    (content_range : Option (Nat × Nat × Nat)) : Except UploadError (Int × Int × Int) :=
  match content_range with
  | some (s, e, t) => .ok ((s : Int), (e : Int), (t : Int))
  | none =>
      if cfg.fail_if_no_header then .error .missingRangeHeader
      else .ok (0, chunk.size - 1, chunk.size)

/-- max_bytes check (lines 207-213): reject when a limit is configured and
the declared total exceeds it. -/
def sizeLimitHit (cfg : Config) (total : Int) : Bool :=
  match cfg.max_bytes with
  | some mb => decide (mb < total)
  | none => false

/-- The success payload of the chunk view (get_response_data, lines 164-172). -/
structure AppendResponse where
  upload_id : String
  offset : Int
  expires_on : Nat
deriving DecidableEq, Repr

/-- ChunkedUploadView._post (views.py lines 174-227), the chunk-append
protocol: reject a missing chunk, resolve the session, resolve the range,
compute chunk_size = end - start + 1, then in order check the size limit,
the offset-sequencing invariant and the declared-size match, then append via
append_chunk and persist.  An error result leaves the store as it was:
nothing is persisted on any failing path. -/
def chunkedUploadView_post (cfg : Config) (now : Nat) (fresh_id : String)
    (store : Store) (req : AppendRequest) (write_ok : Bool) :
    Except UploadError (AppendResponse × Store) :=
  match req.chunk with
  | none => .error .missingChunk
  | some chunk =>
      match resolveSession cfg now fresh_id store req.upload_id chunk with
      | .error e => .error e
      | .ok cu =>
          match resolveRange cfg chunk req.content_range with
          | .error e => .error e
          | .ok (start, rend, total) =>
              let chunk_size : Int := rend - start + 1
              if sizeLimitHit cfg total then .error .sizeLimitExceeded
              else if cu.offset ≠ start then .error (.offsetMismatch cu.offset)
              else if chunk.size ≠ chunk_size then .error .sizeMismatch
              else
                match cu.append_chunk cfg chunk (some chunk_size) write_ok with
                | .error e => .error (.storage e)
                | .ok cu1 =>
                    .ok ({ upload_id := cu1.upload_id, offset := cu1.offset,
                           expires_on := cu1.expires_on cfg }, saveUpload store cu1)

/-- The store after an append request: the persisted store on success, the
untouched one on error (errors abort before any save). -/
def appendStore (store : Store) (r : Except UploadError (AppendResponse × Store)) :
    Store :=
  match r with
  | .ok (_, st) => st
  | .error _ => store

/-- A completion request (ChunkedUploadCompleteView._post inputs). -/
structure CompleteRequest where
  upload_id : Option String
  md5 : Option String

/-- Python falsiness of a request.POST.get value: absent or empty string. -/
def blank (o : Option String) : Bool :=
  match o with
  | none => true
  | some s => s == ""

/-- md5_check of ChunkedUploadCompleteView (lines 254-260): compare the
session digest (computed and cached by the md5 property) with the value the
client sent; mismatch raises ChecksumMismatch. -/
def md5_check (hashFn : Bytes → String) (cu : ChunkedUpload) (md5req : String) :
    Except UploadError ChunkedUpload :=
  let hc := cu.md5 hashFn
  if hc.1 ≠ md5req then .error .checksumMismatch else .ok hc.2

/-- ChunkedUploadCompleteView._post (views.py lines 262-290): require
upload_id (and md5 when do_md5_check), look the session up, reject when
already complete, run the md5 check when enabled, then set status COMPLETE
and completed_on = now, persist, and hand get_uploaded_file() to the
completion hook.  Note the only validity check is already-complete:
this view never consults the expired property. -/
def chunkedUploadCompleteView_post (do_md5_check : Bool) (hashFn : Bytes → String)
    (now : Nat) (store : Store) (req : CompleteRequest) :
    Except UploadError (ChunkedUpload × UploadedFile × Store) :=
  if do_md5_check ∧ (blank req.upload_id ∨ blank req.md5) then
    .error .missingParameters
  else if ¬ do_md5_check ∧ blank req.upload_id then
    .error .missingParameters
  else
    match req.upload_id with
    | none => .error .notFound
    | some uid =>
        match lookupUpload store uid with
        | none => .error .notFound
        | some cu =>
            if cu.status = .complete then .error .alreadyComplete
            else
              let checked : Except UploadError ChunkedUpload :=
                if do_md5_check then md5_check hashFn cu (req.md5.getD "")
                else .ok cu
              match checked with
              | .error e => .error e
              | .ok cu1 =>
                  let cu2 :=
                    { cu1 with
                      status := UploadStatus.complete
                      completed_on := some now }
                  .ok (cu2, cu2.get_uploaded_file, saveUpload store cu2)

/-- The store after a completion request: persisted on success, untouched on
error (completion is all-or-nothing; no failing path saves anything). -/
def completeStore (store : Store)
    (r : Except UploadError (ChunkedUpload × UploadedFile × Store)) : Store :=
  match r with
  | .ok (_, _, st) => st
  | .error _ => store

/-- The session record after a successful append of payload c with a matching
declared size: bytes appended, offset advanced by the declared chunk size,
cached digest cleared (the shape append_chunk produces on success). -/
def advance (cu : ChunkedUpload) (c : Bytes) : ChunkedUpload :=
  { cu with
    fileData := cu.fileData ++ c
    offset := cu.offset + (c.length : Int)
    md5cache := none }

/-- Run a list of append requests in sequence, each with the backend write
succeeding, stopping at the first error. -/
def runAppends (cfg : Config) (now : Nat) (fid : String) :
    Store → List AppendRequest → Except UploadError Store
  | store, [] => .ok store
  | store, r :: rs =>
      match chunkedUploadView_post cfg now fid store r true with
      | .error e1 => .error e1
      | .ok (_, store1) => runAppends cfg now fid store1 rs

/-- The strictly in-order request sequence for the chunk payloads cs starting
at offset off: each request names the session, declares start equal to the
running offset, end = start + length - 1, and the given total. -/
def mkInOrderRequests (uid name : String) (total : Nat) :
    Nat → List Bytes → List AppendRequest
  | _, [] => []
  | off, c :: cs =>
      { chunk := some { name := name, data := c }
        upload_id := some uid
        content_range := some (off, off + c.length - 1, total) } ::
      mkInOrderRequests uid name total (off + c.length) cs

/-- The session record a successful completion persists: status COMPLETE,
completed_on = now, and whatever digest cache the md5 check left behind. -/
def completedOf (cu : ChunkedUpload) (now : Nat) (cache : Option String) :
    ChunkedUpload :=
  { cu with
    status := UploadStatus.complete
    completed_on := some now
    md5cache := cache }

/-- A concrete digest function for witnesses: the decimal byte count. -/
def hashLen : Bytes → String := fun b => toString b.length

/-- Concrete configuration: 1000-byte limit, 10-tick expiration window,
optional header, local backend. -/
def exCfgLimit : Config :=
  { max_bytes := some 1000, expiration_delta := 10, fail_if_no_header := false,
    use_azure := false }

/-- Concrete configuration with no size limit. -/
def exCfgNoMax : Config :=
  { max_bytes := none, expiration_delta := 10, fail_if_no_header := false,
    use_azure := false }

/-- Concrete mid-upload session: two bytes appended so far. -/
def exCuMid : ChunkedUpload :=
  { upload_id := "u1", fileData := [1, 2], filename := "f.bin", offset := 2,
    created_on := 0, status := .uploading, completed_on := none, md5cache := none }

/-- Concrete out-of-order request: restarts at byte 0 against exCuMid. -/
def exReqRestart : AppendRequest :=
  { chunk := some { name := "f.bin", data := [9, 9, 9] }, upload_id := some "u1",
    content_range := some (0, 2, 3) }

/-- Concrete in-order request against exCuMid: bytes 2-4 of 5. -/
def exReqNext : AppendRequest :=
  { chunk := some { name := "f.bin", data := [9, 9, 9] }, upload_id := some "u1",
    content_range := some (2, 4, 5) }

/-- Concrete finished-uploading session: three bytes, ready for completion. -/
def exCuDone : ChunkedUpload :=
  { upload_id := "u2", fileData := [1, 2, 3], filename := "g.bin", offset := 3,
    created_on := 0, status := .uploading, completed_on := none, md5cache := none }

/-- Concrete completion request with the digest hashLen yields for exCuDone. -/
def exReqComplete : CompleteRequest :=
  { upload_id := some "u2", md5 := some "3" }

/-- Concrete completion request with a wrong digest for exCuDone. -/
def exReqBadMd5 : CompleteRequest :=
  { upload_id := some "u2", md5 := some "9" }

/-- Concrete already-completed session. -/
def exCuComplete : ChunkedUpload :=
  { upload_id := "u3", fileData := [1, 2, 3], filename := "h.bin", offset := 3,
    created_on := 0, status := .complete, completed_on := some 1, md5cache := none }

/-- Concrete append request against the completed session exCuComplete. -/
def exReqOnComplete : AppendRequest :=
  { chunk := some { name := "h.bin", data := [4] }, upload_id := some "u3",
    content_range := some (3, 3, 4) }

/-- Concrete fresh session at offset 0 with an empty backing object. -/
def exCuFresh : ChunkedUpload :=
  { upload_id := "u4", fileData := [], filename := "k.bin", offset := 0,
    created_on := 0, status := .uploading, completed_on := none, md5cache := none }

/-- Concrete 100-byte chunk named a.txt. -/
def exChunk100 : Chunk := { name := "a.txt", data := List.replicate 100 7 }

/-- Concrete new-upload request with no range header. -/
def exReqNoHeader : AppendRequest :=
  { chunk := some exChunk100, upload_id := none, content_range := none }

/-- Concrete session the no-header scenario produces. -/
def exCuAfter100 : ChunkedUpload :=
  { upload_id := "fresh7", fileData := List.replicate 100 7, filename := "a.txt",
    offset := 100, created_on := 0, status := .uploading, completed_on := none,
    md5cache := none }

/-- Concrete new-upload request whose declared range starts at byte 50. -/
def exReqNewNonzero : AppendRequest :=
  { chunk := some { name := "n.bin", data := List.replicate 50 1 },
    upload_id := none, content_range := some (50, 99, 100) }

/-- Concrete new-upload request whose declared end (9) is at least its
declared total (5): ten payload bytes, range bytes 0-9/5. -/
def exReqEndPastTotal : AppendRequest :=
  { chunk := some { name := "b.bin", data := List.replicate 10 3 },
    upload_id := none, content_range := some (0, 9, 5) }

end DCU

namespace DCU

/-- A successful lookup returns the row bearing the requested upload_id. -/
theorem lookupUpload_upload_id {store : Store} {uid : String} {cu : ChunkedUpload}
    (h : lookupUpload store uid = some cu) : cu.upload_id = uid := by
  have := List.find?_some h
  simpa using this

/-- Looking up straight after a save finds the saved row. -/
theorem lookupUpload_saveUpload (store : Store) (cu : ChunkedUpload) :
    lookupUpload (saveUpload store cu) cu.upload_id = some cu := by
  induction store with
  | nil => simp [saveUpload, lookupUpload]
  | cons t ts ih =>
      by_cases h : t.upload_id = cu.upload_id
      · simp [saveUpload, h, lookupUpload]
      · have hb : (t.upload_id == cu.upload_id) = false := by simpa using h
        simp only [saveUpload, hb, Bool.false_eq_true, if_false, lookupUpload]
        rw [List.find?_cons_of_neg _ (by simp [hb])]
        exact ih

end DCU

namespace DCU

theorem advance_upload_id (cu : ChunkedUpload) (c : Bytes) :
    (advance cu c).upload_id = cu.upload_id := rfl

theorem advance_status (cu : ChunkedUpload) (c : Bytes) :
    (advance cu c).status = cu.status := rfl

theorem advance_fileData (cu : ChunkedUpload) (c : Bytes) :
    (advance cu c).fileData = cu.fileData ++ c := rfl

theorem advance_offset (cu : ChunkedUpload) (c : Bytes) :
    (advance cu c).offset = cu.offset + (c.length : Int) := rfl

/-- On a successful backend write, append_chunk appends the chunk bytes and
advances the offset by the declared chunk size, for either backend, whenever
the offset equals the stored byte count (so the azure first-append reset
rewrites an already-empty object). -/
theorem append_chunk_ok (cfg : Config) (s : ChunkedUpload) (chunk : Chunk) (cs : Int)
    (hinv : s.offset = (s.fileData.length : Int)) :
    s.append_chunk cfg chunk (some cs) true =
      .ok { s with
            fileData := s.fileData ++ chunk.data
            offset := s.offset + cs
            md5cache := none } := by
  unfold ChunkedUpload.append_chunk
  by_cases ha : cfg.use_azure
  · simp only [ha, if_true]
    by_cases h0 : s.offset = 0
    · have hl : s.fileData.length = 0 := by
        rw [h0] at hinv; exact_mod_cast hinv.symm
      have hnil : s.fileData = [] := List.length_eq_zero.mp hl
      simp [h0, hnil]
    · simp [h0]
  · simp [ha]

/-- A single in-order append request with a matching declared size against a
live session is accepted: the response reports the advanced offset and the
advanced record is persisted. -/
theorem append_accepts
    (cfg : Config) (hmb : cfg.max_bytes = none)
    (now : Nat) (fid uid name : String) (huid : uid ≠ "") (total : Nat)
    (store : Store) (cu : ChunkedUpload) (c : Bytes) (hc : c ≠ [])
    (hfind : lookupUpload store uid = some cu)
    (hst : cu.status = UploadStatus.uploading)
    (hexp : cu.expired cfg now = false)
    (hinv : cu.offset = (cu.fileData.length : Int)) :
    chunkedUploadView_post cfg now fid store
      { chunk := some { name := name, data := c }
        upload_id := some uid
        content_range := some (cu.fileData.length, cu.fileData.length + c.length - 1, total) }
      true =
      .ok ({ upload_id := cu.upload_id
             offset := cu.offset + (c.length : Int)
             expires_on := cu.expires_on cfg },
           saveUpload store (advance cu c)) := by
  have hlen : 1 ≤ c.length := Nat.one_le_iff_ne_zero.mpr (by simpa using hc)
  have hcs : ((cu.fileData.length + c.length - 1 : Nat) : Int) -
      (cu.fileData.length : Int) + 1 = (c.length : Int) := by
    omega
  have hcomp : cu.status ≠ UploadStatus.complete := by
    rw [hst]; intro h; cases h
  simp only [chunkedUploadView_post, resolveSession, resolveRange, hfind]
  rw [if_neg huid]
  simp only [hexp, Bool.false_eq_true, if_false, if_neg hcomp, hmb, sizeLimitHit]
  rw [hcs]
  rw [if_neg (by rw [hinv]; simp : ¬ cu.offset ≠ (cu.fileData.length : Int))]
  rw [if_neg (by simp [Chunk.size] : ¬ (Chunk.mk name c).size ≠ (c.length : Int))]
  rw [append_chunk_ok cfg cu (Chunk.mk name c) (c.length : Int) hinv]
  simp [ChunkedUpload.expires_on, advance]

/-- Running a strictly in-order request sequence from any live session whose
offset equals its stored byte count accepts every chunk and ends with the
session holding all the bytes, offset still equal to the byte count. -/
theorem runAppends_in_order
    (cfg : Config) (hmb : cfg.max_bytes = none)
    (now : Nat) (fid uid name : String) (huid : uid ≠ "") (total : Nat)
    (cs : List Bytes) (hpos : ∀ c ∈ cs, c ≠ []) :
    ∀ (store : Store) (cu : ChunkedUpload),
      lookupUpload store uid = some cu →
      cu.status = UploadStatus.uploading →
      cu.expired cfg now = false →
      cu.offset = (cu.fileData.length : Int) →
      ∃ store1 cu1,
        runAppends cfg now fid store
          (mkInOrderRequests uid name total cu.fileData.length cs) = .ok store1 ∧
        lookupUpload store1 uid = some cu1 ∧
        cu1.fileData = cu.fileData ++ cs.flatten ∧
        cu1.offset = (cu1.fileData.length : Int) ∧
        cu1.status = UploadStatus.uploading := by
  induction cs with
  | nil =>
      intro store cu hfind hst hexp hinv
      exact ⟨store, cu, rfl, hfind, by simp, by simpa using hinv, hst⟩
  | cons c cs ih =>
      intro store cu hfind hst hexp hinv
      have hc : c ≠ [] := hpos c (by simp)
      have hstep := append_accepts cfg hmb now fid uid name huid total store cu c hc
        hfind hst hexp hinv
      have huid0 : cu.upload_id = uid := lookupUpload_upload_id hfind
      have hfind0 := lookupUpload_saveUpload store (advance cu c)
      rw [advance_upload_id, huid0] at hfind0
      obtain ⟨store1, cu1, hrun, hfind1, hdata1, hinv1, hst1⟩ :=
        ih (fun x hx => hpos x (by simp [hx]))
          (saveUpload store (advance cu c)) (advance cu c)
          hfind0 (by rw [advance_status, hst])
          (by simpa [ChunkedUpload.expired, ChunkedUpload.expires_on, advance] using hexp)
          (by rw [advance_offset, advance_fileData, hinv, List.length_append];
              push_cast; ring)
      refine ⟨store1, cu1, ?_, hfind1, ?_, hinv1, hst1⟩
      · simp only [mkInOrderRequests, runAppends, hstep]
        rw [advance_fileData, List.length_append] at hrun
        exact hrun
      · rw [hdata1, advance_fileData, List.append_assoc, List.flatten_cons]

end DCU

namespace DCU

/-- An already-complete session makes the completion view fail with
AlreadyComplete, whatever the checksum mode. -/
theorem completeView_already_complete
    (do_check : Bool) (hashFn : Bytes → String) (now : Nat) (store : Store)
    (req : CompleteRequest) (uid : String) (cu : ChunkedUpload)
    (hu : req.upload_id = some uid) (hbu : blank req.upload_id = false)
    (hmd5 : do_check = true → blank req.md5 = false)
    (hfind : lookupUpload store uid = some cu)
    (hst : cu.status = UploadStatus.complete) :
    chunkedUploadCompleteView_post do_check hashFn now store req =
      .error .alreadyComplete := by
  rw [hu] at hbu
  cases do_check with
  | false => simp [chunkedUploadCompleteView_post, hu, hfind, hbu, hst]
  | true =>
      have hbm : blank req.md5 = false := hmd5 rfl
      cases hq : req.md5 with
      | none => rw [hq] at hbm; simp [blank] at hbm
      | some v =>
          rw [hq] at hbm
          simp [chunkedUploadCompleteView_post, hu, hfind, hbu, hbm, hst, hq]

/-- A wrong checksum makes the completion view fail with ChecksumMismatch. -/
theorem completeView_mismatch
    (hashFn : Bytes → String) (now : Nat) (store : Store)
    (req : CompleteRequest) (uid : String) (cu : ChunkedUpload) (md5v : String)
    (hu : req.upload_id = some uid) (hbu : blank req.upload_id = false)
    (hm : req.md5 = some md5v) (hbm : blank req.md5 = false)
    (hfind : lookupUpload store uid = some cu)
    (hst : cu.status ≠ UploadStatus.complete)
    (hcache : cu.md5cache = none)
    (hne : hashFn cu.fileData ≠ md5v) :
    chunkedUploadCompleteView_post true hashFn now store req =
      .error .checksumMismatch := by
  rw [hu] at hbu
  rw [hm] at hbm
  simp [chunkedUploadCompleteView_post, hu, hfind, hbu, hbm, hst, md5_check,
    ChunkedUpload.md5, hcache, hm, hne]

/-- A matching checksum completes the session: the returned and persisted
record is completedOf cu now (some digest). -/
theorem completeView_success_checked
    (hashFn : Bytes → String) (now : Nat) (store : Store)
    (req : CompleteRequest) (uid : String) (cu : ChunkedUpload) (md5v : String)
    (hu : req.upload_id = some uid) (hbu : blank req.upload_id = false)
    (hm : req.md5 = some md5v) (hbm : blank req.md5 = false)
    (hfind : lookupUpload store uid = some cu)
    (hst : cu.status ≠ UploadStatus.complete)
    (hcache : cu.md5cache = none)
    (heq : hashFn cu.fileData = md5v) :
    chunkedUploadCompleteView_post true hashFn now store req =
      .ok (completedOf cu now (some md5v),
           (completedOf cu now (some md5v)).get_uploaded_file,
           saveUpload store (completedOf cu now (some md5v))) := by
  rw [hu] at hbu
  rw [hm] at hbm
  simp [chunkedUploadCompleteView_post, hu, hfind, hbu, hbm, hst, md5_check,
    ChunkedUpload.md5, hcache, hm, heq, completedOf]

/-- With the checksum check disabled, completion always succeeds on a live
session: the persisted record is completedOf cu now cu.md5cache. -/
theorem completeView_success_unchecked
    (hashFn : Bytes → String) (now : Nat) (store : Store)
    (req : CompleteRequest) (uid : String) (cu : ChunkedUpload)
    (hu : req.upload_id = some uid) (hbu : blank req.upload_id = false)
    (hfind : lookupUpload store uid = some cu)
    (hst : cu.status ≠ UploadStatus.complete) :
    chunkedUploadCompleteView_post false hashFn now store req =
      .ok (completedOf cu now cu.md5cache,
           (completedOf cu now cu.md5cache).get_uploaded_file,
           saveUpload store (completedOf cu now cu.md5cache)) := by
  rw [hu] at hbu
  simp [chunkedUploadCompleteView_post, hu, hfind, hbu, hst, completedOf]

end DCU

namespace DCU

/-- C1: a chunk append naming an existing live session (found, not expired,
not complete, with a range header that passes the size limit) whose declared
start differs from the session's current offset fails with OffsetMismatch
carrying the session's current offset, and the store — hence the session's
offset — is left unchanged (no failing path persists anything). -/
theorem C1_offset_mismatch_rejected
    (cfg : Config) (now : Nat) (fid : String) (store : Store) (req : AppendRequest)
    (wok : Bool) (chunk : Chunk) (uid : String) (cu : ChunkedUpload)
    (start rend total : Nat)
    (hchunk : req.chunk = some chunk)
    (huid : req.upload_id = some uid) (hne : uid ≠ "")
    (hfind : lookupUpload store uid = some cu)
    (hexp : cu.expired cfg now = false)
    (hcomp : cu.status ≠ UploadStatus.complete)
    (hrange : req.content_range = some (start, rend, total))
    (hlimit : sizeLimitHit cfg (total : Int) = false)
    (hoff : cu.offset ≠ (start : Int)) :
    chunkedUploadView_post cfg now fid store req wok =
      .error (.offsetMismatch cu.offset) ∧
    appendStore store (chunkedUploadView_post cfg now fid store req wok) = store := by
  have h1 : chunkedUploadView_post cfg now fid store req wok =
      .error (.offsetMismatch cu.offset) := by
    simp only [chunkedUploadView_post, hchunk, resolveSession, huid, hfind,
      resolveRange, hrange]
    rw [if_neg hne]
    simp only [hexp, Bool.false_eq_true, if_false, if_neg hcomp, hlimit,
      if_pos hoff]
  exact ⟨h1, by rw [h1]; rfl⟩

/-- C1 witness: resending bytes 0-2 against the session at offset 2 is
rejected with OffsetMismatch 2 and the store is untouched. -/
theorem C1_offset_mismatch_rejected_witness :
    chunkedUploadView_post exCfgLimit 5 "fresh" [exCuMid] exReqRestart true =
      .error (.offsetMismatch 2) ∧
    appendStore [exCuMid]
      (chunkedUploadView_post exCfgLimit 5 "fresh" [exCuMid] exReqRestart true) =
      [exCuMid] :=
  C1_offset_mismatch_rejected exCfgLimit 5 "fresh" [exCuMid] exReqRestart true
    (Chunk.mk "f.bin" [9, 9, 9]) "u1" exCuMid 0 2 3
    rfl rfl (by decide) rfl (by decide) (by decide) rfl (by decide) (by decide)

/-- C2 counterexample: the claim says completion succeeds only if the session
is not expired, but the completion view never consults the expired property
(views.py lines 245-252 check only COMPLETE status): a session created at
tick 0 with a 10-tick window, completed at tick 1000 with a matching
checksum, is expired yet completes successfully. -/
theorem C2_counterexample_expired_completes :
    exCuDone.expired exCfgNoMax 1000 = true ∧
    ∃ cu2 f store1,
      chunkedUploadCompleteView_post true hashLen 1000 [exCuDone] exReqComplete =
        .ok (cu2, f, store1) ∧
      cu2.status = UploadStatus.complete ∧ cu2.completed_on = some 1000 := by
  refine ⟨rfl, ?_⟩
  exact ⟨_, _, _, rfl, rfl, rfl⟩

/-- C2 (amended): for a completion request supplying the required parameters
and naming an existing session with no stale cached digest, completion
succeeds (status becomes Complete, completed_on set to now) iff the session
was not already complete and, when checksum verification is enabled, the
supplied checksum matches the assembled object's hash.  Expiration plays no
part: the statement holds with no hypothesis on expired, at any now. -/
theorem C2_amended_completion_iff
    (do_check : Bool) (hashFn : Bytes → String) (now : Nat) (store : Store)
    (req : CompleteRequest) (uid : String) (cu : ChunkedUpload)
    (hu : req.upload_id = some uid) (huid : uid ≠ "")
    (hmd5 : do_check = true → blank req.md5 = false)
    (hfind : lookupUpload store uid = some cu)
    (hcache : cu.md5cache = none) :
    (∃ cu2 f store1,
       chunkedUploadCompleteView_post do_check hashFn now store req =
         .ok (cu2, f, store1) ∧
       cu2.status = UploadStatus.complete ∧ cu2.completed_on = some now) ↔
    (cu.status ≠ UploadStatus.complete ∧
     (do_check = true → hashFn cu.fileData = req.md5.getD "")) := by
  have hbu : blank req.upload_id = false := by
    rw [hu]; simpa [blank] using huid
  constructor
  · rintro ⟨cu2, f, store1, hres, _hst2, _hcomp2⟩
    by_cases hst : cu.status = UploadStatus.complete
    · rw [completeView_already_complete do_check hashFn now store req uid cu
        hu hbu hmd5 hfind hst] at hres
      cases hres
    · refine ⟨hst, ?_⟩
      intro hdc
      subst hdc
      by_contra hne
      have hbm := hmd5 rfl
      cases hq : req.md5 with
      | none => rw [hq] at hbm; simp [blank] at hbm
      | some v =>
          rw [hq] at hne
          simp only [Option.getD_some] at hne
          rw [completeView_mismatch hashFn now store req uid cu v
            hu hbu hq (hq ▸ hbm) hfind hst hcache hne] at hres
          cases hres
  · rintro ⟨hst, hck⟩
    cases do_check with
    | false =>
        rw [completeView_success_unchecked hashFn now store req uid cu
          hu hbu hfind hst]
        exact ⟨_, _, _, rfl, rfl, rfl⟩
    | true =>
        have hbm := hmd5 rfl
        cases hq : req.md5 with
        | none => rw [hq] at hbm; simp [blank] at hbm
        | some v =>
            have heq : hashFn cu.fileData = v := by
              have hv := hck rfl
              rwa [hq, Option.getD_some] at hv
            rw [completeView_success_checked hashFn now store req uid cu v
              hu hbu hq (hq ▸ hbm) hfind hst hcache heq]
            exact ⟨_, _, _, rfl, rfl, rfl⟩

/-- C2 witness: the amended equivalence at a concrete live session with a
matching checksum. -/
theorem C2_amended_completion_iff_witness :
    (∃ cu2 f store1,
       chunkedUploadCompleteView_post true hashLen 5 [exCuDone] exReqComplete =
         .ok (cu2, f, store1) ∧
       cu2.status = UploadStatus.complete ∧ cu2.completed_on = some 5) ↔
    (exCuDone.status ≠ UploadStatus.complete ∧
     (true = true → hashLen exCuDone.fileData = exReqComplete.md5.getD "")) :=
  C2_amended_completion_iff true hashLen 5 [exCuDone] exReqComplete "u2" exCuDone
    rfl (by decide) (fun _ => rfl) rfl rfl

end DCU

namespace DCU

/-- C3: starting from a session at offset 0 with an empty backing object,
delivering any sequence of nonempty chunks strictly in order (each declared
start equal to the current offset, each payload length equal to its declared
size) accepts every append, and afterwards the session's offset equals the
sum of all chunk lengths, which equals the byte length of the assembled
backing object (the concatenation of the chunks). -/
theorem C3_in_order_appends_all_accepted
    (cfg : Config) (hmb : cfg.max_bytes = none)
    (now : Nat) (fid uid name : String) (huid : uid ≠ "") (total : Nat)
    (cs : List Bytes) (hpos : ∀ c ∈ cs, c ≠ [])
    (store : Store) (cu : ChunkedUpload)
    (hfind : lookupUpload store uid = some cu)
    (hst : cu.status = UploadStatus.uploading)
    (hexp : cu.expired cfg now = false)
    (hoff : cu.offset = 0) (hdata : cu.fileData = []) :
    ∃ store1 cu1,
      runAppends cfg now fid store (mkInOrderRequests uid name total 0 cs) =
        .ok store1 ∧
      lookupUpload store1 uid = some cu1 ∧
      cu1.offset = ((cs.map List.length).sum : Int) ∧
      (cs.map List.length).sum = cu1.fileData.length ∧
      cu1.fileData = cs.flatten := by
  have hinv : cu.offset = (cu.fileData.length : Int) := by
    rw [hoff, hdata]; rfl
  obtain ⟨store1, cu1, hrun, hfind1, hdata1, hinv1, _⟩ :=
    runAppends_in_order cfg hmb now fid uid name huid total cs hpos store cu
      hfind hst hexp hinv
  rw [hdata] at hrun hdata1
  simp only [List.nil_append] at hdata1
  have hlenflat : cu1.fileData.length = (cs.map List.length).sum := by
    rw [hdata1]
    exact List.length_flatten cs
  refine ⟨store1, cu1, by simpa using hrun, hfind1, ?_, hlenflat.symm, hdata1⟩
  rw [hinv1, hlenflat]

/-- C3 witness: two chunks of 2 and 3 bytes delivered in order against a
fresh session are both accepted, ending at offset 5 = assembled length. -/
theorem C3_in_order_appends_all_accepted_witness :
    ∃ store1 cu1,
      runAppends exCfgNoMax 0 "fr3" [exCuFresh]
        (mkInOrderRequests "u4" "k.bin" 5 0 [[1, 2], [3, 4, 5]]) = .ok store1 ∧
      lookupUpload store1 "u4" = some cu1 ∧
      cu1.offset = ((([[1, 2], [3, 4, 5]] : List Bytes).map List.length).sum : Int) ∧
      (([[1, 2], [3, 4, 5]] : List Bytes).map List.length).sum =
        cu1.fileData.length ∧
      cu1.fileData = ([[1, 2], [3, 4, 5]] : List Bytes).flatten :=
  C3_in_order_appends_all_accepted exCfgNoMax rfl 0 "fr3" "u4" "k.bin"
    (by decide) 5 [[1, 2], [3, 4, 5]] (by decide) [exCuFresh] exCuFresh
    rfl rfl rfl rfl rfl

/-- C4: a completion request with checksum verification enabled, naming a
live (Uploading) session with no stale cached digest, whose supplied
checksum differs from the hash of the whole assembled object, fails with
ChecksumMismatch and leaves the store entirely unchanged, so status stays
Uploading and completed_on stays unset. -/
theorem C4_checksum_mismatch_all_or_nothing
    (hashFn : Bytes → String) (now : Nat) (store : Store)
    (req : CompleteRequest) (uid : String) (cu : ChunkedUpload) (md5v : String)
    (hu : req.upload_id = some uid) (huid : uid ≠ "")
    (hm : req.md5 = some md5v) (hmv : md5v ≠ "")
    (hfind : lookupUpload store uid = some cu)
    (hst : cu.status = UploadStatus.uploading)
    (hcache : cu.md5cache = none)
    (hne : hashFn cu.fileData ≠ md5v) :
    chunkedUploadCompleteView_post true hashFn now store req =
      .error .checksumMismatch ∧
    completeStore store (chunkedUploadCompleteView_post true hashFn now store req) =
      store := by
  have hbu : blank req.upload_id = false := by
    rw [hu]; simpa [blank] using huid
  have hbm : blank req.md5 = false := by
    rw [hm]; simpa [blank] using hmv
  have h1 := completeView_mismatch hashFn now store req uid cu md5v hu hbu hm hbm
    hfind (by rw [hst]; intro h; cases h) hcache hne
  exact ⟨h1, by rw [h1]; rfl⟩

/-- C4 witness: a wrong digest against the concrete session is rejected with
ChecksumMismatch and the store keeps the Uploading record untouched. -/
theorem C4_checksum_mismatch_all_or_nothing_witness :
    chunkedUploadCompleteView_post true hashLen 5 [exCuDone] exReqBadMd5 =
      .error .checksumMismatch ∧
    completeStore [exCuDone]
      (chunkedUploadCompleteView_post true hashLen 5 [exCuDone] exReqBadMd5) =
      [exCuDone] :=
  C4_checksum_mismatch_all_or_nothing hashLen 5 [exCuDone] exReqBadMd5 "u2"
    exCuDone "9" rfl (by decide) rfl (by decide) rfl rfl rfl (by decide)

/-- C5: a chunk-append request naming an existing, non-expired session whose
status is Complete fails with AlreadyComplete, with no hypothesis on the
range header, the payload or the backend, showing the rejection happens
before any byte is appended; the store — offset and backing object — is
unchanged. -/
theorem C5_already_complete_rejected
    (cfg : Config) (now : Nat) (fid : String) (store : Store) (req : AppendRequest)
    (wok : Bool) (chunk : Chunk) (uid : String) (cu : ChunkedUpload)
    (hchunk : req.chunk = some chunk)
    (huid : req.upload_id = some uid) (hne : uid ≠ "")
    (hfind : lookupUpload store uid = some cu)
    (hexp : cu.expired cfg now = false)
    (hcomp : cu.status = UploadStatus.complete) :
    chunkedUploadView_post cfg now fid store req wok = .error .alreadyComplete ∧
    appendStore store (chunkedUploadView_post cfg now fid store req wok) = store := by
  have h1 : chunkedUploadView_post cfg now fid store req wok =
      .error .alreadyComplete := by
    simp only [chunkedUploadView_post, hchunk, resolveSession, huid, hfind]
    rw [if_neg hne]
    simp only [hexp, Bool.false_eq_true, if_false, if_pos hcomp]
  exact ⟨h1, by rw [h1]; rfl⟩

/-- C5 witness: appending byte 3 to the concrete completed session fails
with AlreadyComplete and changes nothing. -/
theorem C5_already_complete_rejected_witness :
    chunkedUploadView_post exCfgLimit 5 "fresh" [exCuComplete] exReqOnComplete true =
      .error .alreadyComplete ∧
    appendStore [exCuComplete]
      (chunkedUploadView_post exCfgLimit 5 "fresh" [exCuComplete] exReqOnComplete true) =
      [exCuComplete] :=
  C5_already_complete_rejected exCfgLimit 5 "fresh" [exCuComplete] exReqOnComplete
    true (Chunk.mk "h.bin" [4]) "u3" exCuComplete
    rfl rfl (by decide) rfl (by decide) (by decide)

end DCU

namespace DCU

/-- C6: when the blob-sink write fails, append_chunk propagates the storage
error for any session, chunk and declared size under either backend
(use_azure true or false is free in cfg), and a chunk-append request that
reaches the append step (all protocol checks passing) propagates the same
error with the store — hence the session's persisted offset — unchanged: a
failed append gives no partial credit. -/
theorem C6_write_failure_no_partial_credit
    (cfg : Config) (now : Nat) (fid : String) (store : Store) (req : AppendRequest)
    (chunk : Chunk) (uid : String) (cu : ChunkedUpload)
    (start rend total : Nat)
    (s0 : ChunkedUpload) (k : Option Int)
    (hchunk : req.chunk = some chunk)
    (huid : req.upload_id = some uid) (hne : uid ≠ "")
    (hfind : lookupUpload store uid = some cu)
    (hexp : cu.expired cfg now = false)
    (hcomp : cu.status ≠ UploadStatus.complete)
    (hrange : req.content_range = some (start, rend, total))
    (hlimit : sizeLimitHit cfg (total : Int) = false)
    (hoff : cu.offset = (start : Int))
    (hsize : chunk.size = (rend : Int) - (start : Int) + 1) :
    s0.append_chunk cfg chunk k false = .error .writeFailed ∧
    chunkedUploadView_post cfg now fid store req false =
      .error (.storage .writeFailed) ∧
    appendStore store (chunkedUploadView_post cfg now fid store req false) =
      store := by
  have ha : s0.append_chunk cfg chunk k false = .error .writeFailed := by
    simp [ChunkedUpload.append_chunk]
  have h1 : chunkedUploadView_post cfg now fid store req false =
      .error (.storage .writeFailed) := by
    simp only [chunkedUploadView_post, hchunk, resolveSession, huid, hfind,
      resolveRange, hrange]
    rw [if_neg hne]
    simp only [hexp, Bool.false_eq_true, if_false, if_neg hcomp, hlimit]
    rw [if_neg (by rw [hoff]; simp)]
    rw [if_neg (by rw [hsize]; simp)]
    simp [ChunkedUpload.append_chunk]
  exact ⟨ha, h1, by rw [h1]; rfl⟩

/-- C6 witness: an in-order, size-matching append whose backend write fails
propagates the storage error and leaves the concrete store untouched. -/
theorem C6_write_failure_no_partial_credit_witness :
    exCuMid.append_chunk exCfgLimit (Chunk.mk "f.bin" [9, 9, 9]) (some 3) false =
      .error .writeFailed ∧
    chunkedUploadView_post exCfgLimit 5 "fr6" [exCuMid] exReqNext false =
      .error (.storage .writeFailed) ∧
    appendStore [exCuMid]
      (chunkedUploadView_post exCfgLimit 5 "fr6" [exCuMid] exReqNext false) =
      [exCuMid] :=
  C6_write_failure_no_partial_credit exCfgLimit 5 "fr6" [exCuMid] exReqNext
    (Chunk.mk "f.bin" [9, 9, 9]) "u1" exCuMid 2 4 5 exCuMid (some 3)
    rfl rfl (by decide) rfl (by decide) (by decide) rfl (by decide) (by decide)
    (by decide)

/-- C7: with fail_if_no_header false, a request with no range header
synthesizes start = 0, end = chunk.size - 1, total = chunk.size for any
chunk; and concretely a new upload (no upload_id) of a single 100-byte chunk
named a.txt with no header yields a persisted session with offset = 100 and
status Uploading. -/
theorem C7_no_header_synthesizes_whole_file
    (cfg : Config) (chunk : Chunk) (hf : cfg.fail_if_no_header = false) :
    resolveRange cfg chunk none = .ok (0, chunk.size - 1, chunk.size) ∧
    chunkedUploadView_post exCfgNoMax 0 "fresh7" [] exReqNoHeader true =
      .ok ({ upload_id := "fresh7", offset := 100, expires_on := 10 },
           [exCuAfter100]) ∧
    exCuAfter100.offset = 100 ∧ exCuAfter100.status = UploadStatus.uploading := by
  refine ⟨by simp [resolveRange, hf], ?_, rfl, rfl⟩
  rfl

/-- C7 witness: the synthesis equation evaluated at the concrete 100-byte
chunk and configuration. -/
theorem C7_no_header_synthesizes_whole_file_witness :
    resolveRange exCfgNoMax exChunk100 none =
      .ok (0, exChunk100.size - 1, exChunk100.size) ∧
    chunkedUploadView_post exCfgNoMax 0 "fresh7" [] exReqNoHeader true =
      .ok ({ upload_id := "fresh7", offset := 100, expires_on := 10 },
           [exCuAfter100]) ∧
    exCuAfter100.offset = 100 ∧ exCuAfter100.status = UploadStatus.uploading :=
  C7_no_header_synthesizes_whole_file exCfgNoMax exChunk100 rfl

/-- C8: a successful completion request (required parameters supplied,
session found and not already complete, checksum matching when verification
is enabled) returns a record with status Complete and completed_on = now,
persists exactly that record (it is found in the resulting store), and hands
the completion hook a read handle whose reported size equals the session's
offset, which the completion left unchanged. -/
theorem C8_completion_success_effects
    (do_check : Bool) (hashFn : Bytes → String) (now : Nat) (store : Store)
    (req : CompleteRequest) (uid : String) (cu : ChunkedUpload)
    (hu : req.upload_id = some uid) (huid : uid ≠ "")
    (hfind : lookupUpload store uid = some cu)
    (hst : cu.status ≠ UploadStatus.complete)
    (hcache : cu.md5cache = none)
    (hck : do_check = true →
      ∃ md5v, req.md5 = some md5v ∧ md5v ≠ "" ∧ hashFn cu.fileData = md5v) :
    ∃ cu2 f store1,
      chunkedUploadCompleteView_post do_check hashFn now store req =
        .ok (cu2, f, store1) ∧
      cu2.status = UploadStatus.complete ∧
      cu2.completed_on = some now ∧
      cu2.offset = cu.offset ∧
      store1 = saveUpload store cu2 ∧
      lookupUpload store1 uid = some cu2 ∧
      f = cu2.get_uploaded_file ∧
      f.size = cu2.offset := by
  have hbu : blank req.upload_id = false := by
    rw [hu]; simpa [blank] using huid
  have huid0 : cu.upload_id = uid := lookupUpload_upload_id hfind
  cases do_check with
  | false =>
      rw [completeView_success_unchecked hashFn now store req uid cu
        hu hbu hfind hst]
      refine ⟨_, _, _, rfl, rfl, rfl, rfl, rfl, ?_, rfl, rfl⟩
      have hsv := lookupUpload_saveUpload store (completedOf cu now cu.md5cache)
      rwa [show (completedOf cu now cu.md5cache).upload_id = uid from huid0]
        at hsv
  | true =>
      obtain ⟨md5v, hm, hmv, heq⟩ := hck rfl
      have hbm : blank req.md5 = false := by
        rw [hm]; simpa [blank] using hmv
      rw [completeView_success_checked hashFn now store req uid cu md5v
        hu hbu hm hbm hfind hst hcache heq]
      refine ⟨_, _, _, rfl, rfl, rfl, rfl, rfl, ?_, rfl, rfl⟩
      have hsv := lookupUpload_saveUpload store (completedOf cu now (some md5v))
      rwa [show (completedOf cu now (some md5v)).upload_id = uid from huid0]
        at hsv

/-- C8 witness: completing the concrete session with its correct digest
yields a Complete persisted record and a read handle of size 3 = offset. -/
theorem C8_completion_success_effects_witness :
    ∃ cu2 f store1,
      chunkedUploadCompleteView_post true hashLen 5 [exCuDone] exReqComplete =
        .ok (cu2, f, store1) ∧
      cu2.status = UploadStatus.complete ∧
      cu2.completed_on = some 5 ∧
      cu2.offset = exCuDone.offset ∧
      store1 = saveUpload [exCuDone] cu2 ∧
      lookupUpload store1 "u2" = some cu2 ∧
      f = cu2.get_uploaded_file ∧
      f.size = cu2.offset :=
  C8_completion_success_effects true hashLen 5 [exCuDone] exReqComplete "u2"
    exCuDone rfl (by decide) rfl (by decide) rfl
    (fun _ => ⟨"3", rfl, by decide, rfl⟩)

/-- C9: a chunk-append request with no upload_id whose range header declares
a nonzero start (and passes the size limit) fails with OffsetMismatch
reporting offset 0, because a newly created session always begins at
offset 0; nothing is persisted. -/
theorem C9_new_upload_nonzero_start_rejected
    (cfg : Config) (now : Nat) (fid : String) (store : Store) (req : AppendRequest)
    (wok : Bool) (chunk : Chunk) (start rend total : Nat)
    (hchunk : req.chunk = some chunk)
    (huid : req.upload_id = none)
    (hrange : req.content_range = some (start, rend, total))
    (hs : start ≠ 0)
    (hlimit : sizeLimitHit cfg (total : Int) = false) :
    chunkedUploadView_post cfg now fid store req wok =
      .error (.offsetMismatch 0) ∧
    appendStore store (chunkedUploadView_post cfg now fid store req wok) = store := by
  have h1 : chunkedUploadView_post cfg now fid store req wok =
      .error (.offsetMismatch 0) := by
    have h0 : (0 : Int) ≠ (start : Int) := by exact_mod_cast Ne.symm hs
    simp only [chunkedUploadView_post, hchunk, resolveSession, huid,
      resolveRange, hrange, create_chunked_upload, hlimit, Bool.false_eq_true,
      if_false]
    rw [if_pos h0]
  exact ⟨h1, by rw [h1]; rfl⟩

/-- C9 witness: a new upload declaring bytes 50-99/100 is rejected with
OffsetMismatch 0 against the empty store. -/
theorem C9_new_upload_nonzero_start_rejected_witness :
    chunkedUploadView_post exCfgLimit 0 "fr9" [] exReqNewNonzero true =
      .error (.offsetMismatch 0) ∧
    appendStore []
      (chunkedUploadView_post exCfgLimit 0 "fr9" [] exReqNewNonzero true) = [] :=
  C9_new_upload_nonzero_start_rejected exCfgLimit 0 "fr9" [] exReqNewNonzero true
    (Chunk.mk "n.bin" (List.replicate 50 1)) 50 99 100
    rfl rfl rfl (by decide) (by decide)

/-- C10: the declared range is never validated against the declared total:
a concrete new-upload request declaring bytes 0-9/5 (end 9 at least the
total 5) with a 10-byte payload is accepted under a 1000-byte limit, ending
at offset 10. -/
theorem C10_end_past_total_accepted :
    exReqEndPastTotal.content_range = some (0, 9, 5) ∧
    5 ≤ 9 ∧
    chunkedUploadView_post exCfgLimit 0 "u10" [] exReqEndPastTotal true =
      .ok ({ upload_id := "u10", offset := 10, expires_on := 10 },
           [{ upload_id := "u10", fileData := List.replicate 10 3,
              filename := "b.bin", offset := 10, created_on := 0,
              status := .uploading, completed_on := none, md5cache := none }]) := by
  refine ⟨rfl, by norm_num, ?_⟩
  rfl

end DCU
